import Mathlib

/-!
Verification of the bluepill LCD example (src/main.rs and src/util.rs).

Machine integers are modelled as `Nat` with explicit reduction modulo
`2 ^ 32` (Rust `u32` wrapping arithmetic) and modulo `2 ^ 24` (the SysTick
counter is 24 bits wide).  Busy-wait loops are modelled as fuel-indexed
recursions returning `Option`: `none` means the loop did not finish within
the given fuel, `some r` means it finished with result `r`.
-/

namespace Bluepill

/-- The SysTick counter range: `2 ^ 24 = 16777216`. -/
def WRAP24 : Nat := 16777216

/-- Bit 23, the mask `0x00800000` used by `delay_us` as the "sign" bit of a
24-bit difference (`2 ^ 23 = 8388608`). -/
def SIGN_BIT : Nat := 8388608

/-- The `u32` range: `2 ^ 32 = 4294967296`. -/
def WRAP32 : Nat := 4294967296

/-- Rust `u32::wrapping_sub`, on `Nat` representatives. -/
def wrapping_sub (a b : Nat) : Nat := (a + (WRAP32 - b % WRAP32)) % WRAP32

namespace MainRs

/-- Pin constant from src/main.rs line 28: PB1 is RS. -/
def RS : Nat := 1

/-- Pin constant from src/main.rs line 29: PB10 is RW. -/
def RW : Nat := 10

/-- Pin constant from src/main.rs line 30: PB11 is E. -/
def E : Nat := 11

/-- Pin constant from src/main.rs line 31: PB12-PB15 is DB4-DB7. -/
def DATA : Nat := 12

/-- Value returned by `syst.get_current()` after `t` counter ticks have
elapsed, when the counter read `c0` at tick 0.  SysTick is a 24-bit down
counter; `delay_us` (src/main.rs line 17) assumes the reload value is
`0xffffff`, so the counter decrements modulo `2 ^ 24`. -/
def get_current (c0 t : Nat) : Nat := (c0 + (WRAP24 - t % WRAP24)) % WRAP24

/-- The `stop_at` computation of `delay_us` (src/main.rs line 21):
`syst.get_current().wrapping_sub((delay * 9) - 1)`.  The inner `- 1` is a
plain `u32` subtraction; it is modelled with wrapping (release-build)
semantics. -/
def stop_at (c0 delay : Nat) : Nat :=
  wrapping_sub c0 (wrapping_sub (delay * 9 % WRAP32) 1)

/-- The loop guard of `delay_us` (src/main.rs line 25): spin while
`(current.wrapping_sub(stop_at) & 0x00800000) == 0`. -/
def keep_spinning (s cur : Nat) : Bool :=
  wrapping_sub cur s &&& SIGN_BIT == 0

/-- The spin loop of `delay_us` (src/main.rs lines 19-26), checked once per
counter tick starting from the tick at which `stop_at` was computed.
Returns the tick index at which the loop exits, or `none` if it is still
spinning when the fuel runs out. -/
def delay_us (c0 delay : Nat) : Nat → Nat → Option Nat
  | 0, _ => none
  | fuel + 1, t =>
    if keep_spinning (stop_at c0 delay) (get_current c0 t) then
      delay_us c0 delay fuel (t + 1)
    else
      some t

theorem and_sign_bit_eq_zero_iff (x : Nat) :
    x &&& SIGN_BIT = 0 ↔ x % WRAP24 < SIGN_BIT := by
  have h24 : WRAP24 = 2 ^ 24 := by norm_num [WRAP24]
  have h23 : SIGN_BIT = 2 ^ 23 := by norm_num [SIGN_BIT]
  have hlit : (2 : Nat) ^ 23 = 8388608 := by norm_num
  have hlit24 : (2 : Nat) ^ 24 = 16777216 := by norm_num
  rw [h24, h23, Nat.and_two_pow, Nat.testBit_to_div_mod]
  cases h : decide (x / 2 ^ 23 % 2 = 1) with
  | false =>
    simp only [Bool.toNat_false, zero_mul]
    simp only [decide_eq_false_iff_not] at h
    rw [hlit] at h
    rw [hlit, hlit24]
    constructor
    · intro _; omega
    · intro _; trivial
  | true =>
    simp only [Bool.toNat_true, one_mul]
    simp only [decide_eq_true_eq] at h
    rw [hlit] at h
    rw [hlit, hlit24]
    constructor
    · intro hz; omega
    · intro hlt; omega

theorem keep_spinning_eq_true_iff (s cur : Nat) :
    keep_spinning s cur = true ↔ wrapping_sub cur s % WRAP24 < SIGN_BIT := by
  unfold keep_spinning
  rw [beq_iff_eq]
  exact and_sign_bit_eq_zero_iff _

theorem wrapping_diff (c0 delay t : Nat) (hc : c0 < WRAP24)
    (hd : delay * 9 < SIGN_BIT) (ht : t ≤ delay * 9) :
    wrapping_sub (get_current c0 t) (stop_at c0 delay) % WRAP24
      = (WRAP24 + delay * 9 - 1 - t) % WRAP24 := by
  unfold wrapping_sub get_current stop_at wrapping_sub at *
  unfold WRAP24 WRAP32 SIGN_BIT at *
  omega

theorem keep_spinning_char (c0 delay t : Nat) (hc : c0 < WRAP24)
    (hd : delay * 9 < SIGN_BIT) (ht : t ≤ delay * 9) :
    keep_spinning (stop_at c0 delay) (get_current c0 t)
      = decide (t < delay * 9) := by
  have hdiff := wrapping_diff c0 delay t hc hd ht
  by_cases h : t < delay * 9
  · have : keep_spinning (stop_at c0 delay) (get_current c0 t) = true := by
      rw [keep_spinning_eq_true_iff, hdiff]
      unfold WRAP24 SIGN_BIT at *
      omega
    rw [this]
    simp [h]
  · have : ¬ (wrapping_sub (get_current c0 t) (stop_at c0 delay) % WRAP24
        < SIGN_BIT) := by
      rw [hdiff]
      unfold WRAP24 SIGN_BIT at *
      omega
    have hfalse : ¬ keep_spinning (stop_at c0 delay) (get_current c0 t) = true :=
      fun hb => this ((keep_spinning_eq_true_iff _ _).mp hb)
    rw [Bool.not_eq_true] at hfalse
    rw [hfalse]
    simp [h]

theorem delay_us_loop_exit (c0 delay : Nat) :
    ∀ (n fuel t : Nat), n < fuel →
      (∀ s, s < n →
        keep_spinning (stop_at c0 delay) (get_current c0 (t + s)) = true) →
      keep_spinning (stop_at c0 delay) (get_current c0 (t + n)) = false →
      delay_us c0 delay fuel t = some (t + n) := by
  intro n
  induction n with
  | zero =>
    intro fuel t hfuel _ hstop
    match fuel, hfuel with
    | fuel + 1, _ =>
      unfold delay_us
      simp only [Nat.add_zero] at hstop
      rw [hstop]
      simp
  | succ n ih =>
    intro fuel t hfuel hspin hstop
    match fuel, hfuel with
    | fuel + 1, hfuel =>
      unfold delay_us
      have h0 : keep_spinning (stop_at c0 delay) (get_current c0 t) = true := by
        have := hspin 0 (Nat.succ_pos n)
        simpa using this
      rw [h0]
      simp only [if_true]
      have hrec := ih fuel (t + 1) (by omega)
        (fun s hs => by
          have := hspin (s + 1) (by omega)
          have harr : t + (s + 1) = t + 1 + s := by omega
          rw [harr] at this
          exact this)
        (by
          have harr : t + (n + 1) = t + 1 + n := by omega
          rw [harr] at hstop
          exact hstop)
      rw [hrec]
      have : t + 1 + n = t + (n + 1) := by omega
      rw [this]

/-- C1: for every initial 24-bit counter value `c0` and every delay `delay`
with `delay * 9 < 2 ^ 23` ticks, the snapshot/compare loop of `delay_us`
(src/main.rs lines 19-26) terminates, and it exits exactly at tick
`delay * 9`, hence never before `delay * 9` counter ticks have elapsed from
`c0` — including runs where the down counter wraps through zero. -/
theorem delay_us_terminates_no_early_exit (c0 delay : Nat)
    (hc : c0 < WRAP24) (hd : delay * 9 < SIGN_BIT) :
    delay_us c0 delay (SIGN_BIT + 1) 0 = some (delay * 9) := by
  have h := delay_us_loop_exit c0 delay (delay * 9) (SIGN_BIT + 1) 0
    (by omega)
    (fun s hs => by
      rw [Nat.zero_add, keep_spinning_char c0 delay s hc hd (by omega)]
      simpa using hs)
    (by
      rw [Nat.zero_add, keep_spinning_char c0 delay (delay * 9) hc hd (by omega)]
      simp)
  simpa using h

/-- Witness for C1 at `c0 = 5`, `delay = 1`: the loop exits at tick 9. -/
theorem delay_us_terminates_no_early_exit_witness :
    delay_us 5 1 (SIGN_BIT + 1) 0 = some 9 :=
  delay_us_terminates_no_early_exit 5 1 (by decide) (by decide)

/-- Modelled from the spec: the claimed snapshot/compare stop target
`target = c0 − (duration_usec × ticks_per_microsecond) mod 2^24`, with the
tick rate 9 used by the code. -/
def snap_target_spec (c0 delay : Nat) : Nat :=
  (c0 + (WRAP24 - delay * 9 % WRAP24)) % WRAP24

/-- Modelled from the spec, amended: the stop target the code actually
computes, `target = c0 − (duration_usec × 9 − 1) mod 2^24`. -/
def snap_target_amended (c0 delay : Nat) : Nat :=
  (c0 + (WRAP24 - (delay * 9 - 1) % WRAP24)) % WRAP24

/-- C6 counterexample: at `c0 = 100`, `delay = 1` the code computes
`stop_at = 92` (line 21 subtracts `delay * 9 - 1`, not `delay * 9`), while
the claimed formula gives `91`; they differ even modulo 2^24. -/
theorem stop_at_ne_snap_target_spec :
    stop_at 100 1 % WRAP24 ≠ snap_target_spec 100 1 := by decide

/-- C6 amended: for `delay ≥ 1`, `stop_at` (src/main.rs line 21) equals
`c0 − (delay × 9 − 1)` modulo 2^24 (only the low 24 bits of the u32 value
are relevant to the bit-23 test), and the loop guard (line 25) spins
exactly while bit 23 of the 24-bit wrapping difference
`current − stop_at` is clear, i.e. while that difference is below 2^23. -/
theorem stop_at_off_by_one_char (c0 delay : Nat) (hd : 1 ≤ delay) :
    stop_at c0 delay % WRAP24 = snap_target_amended c0 delay ∧
    ∀ cur, keep_spinning (stop_at c0 delay) cur
      = decide (wrapping_sub cur (stop_at c0 delay) % WRAP24 < SIGN_BIT) := by
  constructor
  · unfold stop_at wrapping_sub snap_target_amended
    unfold WRAP24 WRAP32
    have h9 : 9 ≤ delay * 9 := by omega
    omega
  · intro cur
    have h := keep_spinning_eq_true_iff (stop_at c0 delay) cur
    cases hb : keep_spinning (stop_at c0 delay) cur with
    | false =>
      rw [hb] at h
      simp only [Bool.false_eq_true, false_iff] at h
      simp [h]
    | true =>
      rw [hb] at h
      simp only [true_iff] at h
      simp [h]

/-- Witness for the amended C6 at `c0 = 100`, `delay = 1`, `cur = 50`. -/
theorem stop_at_off_by_one_char_witness :
    stop_at 100 1 % WRAP24 = snap_target_amended 100 1 ∧
    keep_spinning (stop_at 100 1) 50
      = decide (wrapping_sub 50 (stop_at 100 1) % WRAP24 < SIGN_BIT) :=
  ⟨(stop_at_off_by_one_char 100 1 (by decide)).1,
   (stop_at_off_by_one_char 100 1 (by decide)).2 50⟩

/-- The bounded wait `wait_condition` (src/main.rs lines 61-71).  The code
first performs `syst.clear_current()` (resetting the counter and the
one-shot wrap flag) and then polls; the model indexes both the polled
condition `f` and the wrap flag `wrapped` by the poll iteration counted
from that reset.  Each iteration evaluates `f` first and consults the wrap
flag only when `f` is false.  `none` means the fuel ran out while both `f`
and `wrapped` stayed false. -/
def wait_condition (f wrapped : Nat → Bool) : Nat → Nat → Option Bool
  | 0, _ => none
  | fuel + 1, t =>
    if f t then some true
    else if wrapped t then some false
    else wait_condition f wrapped fuel (t + 1)

/-- C10: `wait_condition` evaluates the polled condition before the wrap
flag on every iteration: if the condition holds at entry the result is
`true` regardless of the wrap flag, and a `false` result arises only at an
iteration where the wrap flag fired while the condition was still false. -/
theorem wait_condition_polls_condition_first (f wrapped : Nat → Bool) :
    (f 0 = true → ∀ fuel, 1 ≤ fuel →
      wait_condition f wrapped fuel 0 = some true) ∧
    (∀ fuel t, wait_condition f wrapped fuel t = some false →
      ∃ s, t ≤ s ∧ f s = false ∧ wrapped s = true) := by
  constructor
  · intro hf fuel hfuel
    match fuel, hfuel with
    | fuel + 1, _ =>
      unfold wait_condition
      rw [hf]
      simp
  · intro fuel
    induction fuel with
    | zero =>
      intro t h
      simp [wait_condition] at h
    | succ fuel ih =>
      intro t h
      unfold wait_condition at h
      cases hf : f t with
      | true =>
        rw [hf] at h
        simp at h
      | false =>
        rw [hf] at h
        simp only [Bool.false_eq_true, if_false] at h
        cases hw : wrapped t with
        | true => exact ⟨t, Nat.le_refl t, hf, hw⟩
        | false =>
          rw [hw] at h
          simp only [Bool.false_eq_true, if_false] at h
          obtain ⟨s, hs, h1, h2⟩ := ih (t + 1) h
          exact ⟨s, by omega, h1, h2⟩

/-- Witness for C10: with an always-true condition the wait returns `true`
immediately, and a run that returned `false` exhibits an iteration where
the wrap flag fired with the condition false. -/
theorem wait_condition_polls_condition_first_witness :
    wait_condition (fun _ => true) (fun _ => true) 1 0 = some true ∧
    ∃ s, 0 ≤ s ∧ (fun _ => false) s = false ∧ (fun _ => true) s = true :=
  ⟨(wait_condition_polls_condition_first (fun _ => true) (fun _ => true)).1
      rfl 1 (by decide),
   (wait_condition_polls_condition_first (fun _ => false) (fun _ => true)).2
      1 0 rfl⟩

/-- The spec's clock bring-up states, mapped onto the phases of `setup`
(src/main.rs lines 78-121): `Idle` at entry; `OscillatorStarting` once
`hseon` is set (line 91); `OscillatorReady` when the guarded HSE wait
succeeds (line 92); `PLLLocking` once `pllon` is set (line 106);
`PLLLocked` when the guarded PLL wait succeeds (line 107);
`SwitchingSystemClock` once `sw().pll()` is written (line 112); `Running`
when the guarded SYSCLK-switch wait succeeds (line 113). -/
inductive ClockState
  | Idle
  | OscillatorStarting
  | OscillatorReady
  | PLLLocking
  | PLLLocked
  | SwitchingSystemClock
  | Running
  deriving DecidableEq

/-- Outcome of a `setup` run: normal return, or a fatal `panic!` with the
given message. -/
inductive SetupOutcome
  | completed
  | panicked (msg : String)
  deriving DecidableEq

/-- Hardware oracles for one `setup` run.  Each guarded wait uses its own
pair of oracles, indexed by poll iteration counted from that wait's
`clear_current` reset, exactly as in `wait_condition`. -/
structure ClockEnv where
  pllLockedAtEntry : Bool
  hserdy : Nat → Bool
  hseWrapped : Nat → Bool
  pllrdy : Nat → Bool
  pllWrapped : Nat → Bool
  swsPll : Nat → Bool
  swsWrapped : Nat → Bool

/-- Result of a `setup` run: the outcome, the bring-up states visited in
order, and the SYST reload value at the point the run ended. -/
structure SetupResult where
  outcome : SetupOutcome
  states : List ClockState
  reload : Nat
  deriving DecidableEq

/-- Panic message of the entry check, src/main.rs line 80. -/
def ENTRY_PANIC_MSG : String := "PLL must be unlocked at this moment!"

/-- Panic message of the HSE guard, src/main.rs line 93. -/
def HSE_PANIC_MSG : String := "HSE failed to start"

/-- Panic message of the PLL guard, src/main.rs line 108. -/
def PLL_PANIC_MSG : String := "PLL failed to lock"

/-- Panic message of the SYSCLK-switch guard, src/main.rs line 114. -/
def SWS_PANIC_MSG : String := "SYSCLK failed to switch to PLL"

/-- The strict forward order of bring-up states demanded by the spec. -/
def fullBringUpOrder : List ClockState :=
  [.Idle, .OscillatorStarting, .OscillatorReady, .PLLLocking, .PLLLocked,
   .SwitchingSystemClock, .Running]

/-- Clock bring-up, `setup` (src/main.rs lines 78-121).  `reload0` is the
SYST reload value at entry; line 84 programs the 50 ms timeout reload
`50_000 - 1` used by all three guarded waits, and on success line 119
programs `9_000 - 1` (1 ms at the 9 MHz SysTick that results from the new
72 MHz clock).  A `panic!` halts the run immediately. -/
def setup (env : ClockEnv) (reload0 fuel : Nat) : Option SetupResult :=
  if env.pllLockedAtEntry then
    some ⟨.panicked ENTRY_PANIC_MSG, [.Idle], reload0⟩
  else
    match wait_condition env.hserdy env.hseWrapped fuel 0 with
    | none => none
    | some false =>
      some ⟨.panicked HSE_PANIC_MSG, [.Idle, .OscillatorStarting], 50000 - 1⟩
    | some true =>
      match wait_condition env.pllrdy env.pllWrapped fuel 0 with
      | none => none
      | some false =>
        some ⟨.panicked PLL_PANIC_MSG,
          [.Idle, .OscillatorStarting, .OscillatorReady, .PLLLocking],
          50000 - 1⟩
      | some true =>
        match wait_condition env.swsPll env.swsWrapped fuel 0 with
        | none => none
        | some false =>
          some ⟨.panicked SWS_PANIC_MSG,
            [.Idle, .OscillatorStarting, .OscillatorReady, .PLLLocking,
             .PLLLocked, .SwitchingSystemClock],
            50000 - 1⟩
        | some true =>
          some ⟨.completed, fullBringUpOrder, 9000 - 1⟩

/-- Reload value assumed by `delay_us` (its doc comment, src/main.rs
line 17: "the reload value of 0xffffff (maximum)"). -/
def DELAY_US_ASSUMED_RELOAD : Nat := 16777215

/-- The SYST reload value in `run` (src/main.rs lines 175-180) at the
first point a `delay_us` call can execute: `run` calls `setup` and then
performs `syst.set_reload(0x00ffffff)` (line 180) before touching the
display.  If `setup` panicked the program halts and that point is never
reached, modelled as `none`. -/
def run_reload_before_delays (env : ClockEnv) (reload0 fuel : Nat) :
    Option Nat :=
  match setup env reload0 fuel with
  | none => none
  | some res =>
    match res.outcome with
    | .panicked _ => none
    | .completed => some 16777215

/-- An environment in which every guarded condition is true at the first
poll and the PLL is unlocked at entry. -/
def envAllReady : ClockEnv :=
  ⟨false, fun _ => true, fun _ => false, fun _ => true, fun _ => false,
   fun _ => true, fun _ => false⟩

/-- An environment in which the PLL is already locked at entry. -/
def envLockedAtEntry : ClockEnv :=
  ⟨true, fun _ => true, fun _ => false, fun _ => true, fun _ => false,
   fun _ => true, fun _ => false⟩

/-- C2: every hardware-settling transition of `setup` is guarded by a
bounded wait (`wait_condition`, which resets the counter before polling);
if a guard's wrap flag fires with its condition still false, `setup`
panics with that guard's message and the visited states stop strictly
before the next state; a completed run visits exactly
`fullBringUpOrder`, and every panicked run visits a proper prefix of it,
so no run ever visits a state out of forward order. -/
theorem setup_state_machine (env : ClockEnv) (reload0 fuel : Nat)
    (res : SetupResult) (h : setup env reload0 fuel = some res) :
    (res.outcome = .completed → res.states = fullBringUpOrder) ∧
    (env.pllLockedAtEntry = false →
      wait_condition env.hserdy env.hseWrapped fuel 0 = some false →
      res.outcome = .panicked HSE_PANIC_MSG ∧
      res.states = [.Idle, .OscillatorStarting]) ∧
    (env.pllLockedAtEntry = false →
      wait_condition env.hserdy env.hseWrapped fuel 0 = some true →
      wait_condition env.pllrdy env.pllWrapped fuel 0 = some false →
      res.outcome = .panicked PLL_PANIC_MSG ∧
      res.states =
        [.Idle, .OscillatorStarting, .OscillatorReady, .PLLLocking]) ∧
    (env.pllLockedAtEntry = false →
      wait_condition env.hserdy env.hseWrapped fuel 0 = some true →
      wait_condition env.pllrdy env.pllWrapped fuel 0 = some true →
      wait_condition env.swsPll env.swsWrapped fuel 0 = some false →
      res.outcome = .panicked SWS_PANIC_MSG ∧
      res.states =
        [.Idle, .OscillatorStarting, .OscillatorReady, .PLLLocking,
         .PLLLocked, .SwitchingSystemClock]) ∧
    (∀ msg, res.outcome = .panicked msg →
      res.states ≠ fullBringUpOrder ∧ res.states <+: fullBringUpOrder) := by
  unfold setup at h
  cases hpll : env.pllLockedAtEntry with
  | true =>
    rw [hpll] at h
    simp only [if_true] at h
    cases h
    refine ⟨?_, ?_, ?_, ?_, ?_⟩
    · intro hc; exact absurd hc (by simp)
    · intro hf; exact absurd hf (by simp)
    · intro hf; exact absurd hf (by simp)
    · intro hf; exact absurd hf (by simp)
    · intro msg _
      exact ⟨by simp [fullBringUpOrder],
        ⟨[.OscillatorStarting, .OscillatorReady, .PLLLocking, .PLLLocked,
          .SwitchingSystemClock, .Running], rfl⟩⟩
  | false =>
    rw [hpll] at h
    simp only [Bool.false_eq_true, if_false] at h
    cases hw1 : wait_condition env.hserdy env.hseWrapped fuel 0 with
    | none => rw [hw1] at h; exact absurd h (by simp)
    | some b1 =>
      rw [hw1] at h
      cases b1 with
      | false =>
        simp only [] at h
        cases h
        refine ⟨?_, ?_, ?_, ?_, ?_⟩
        · intro hc; exact absurd hc (by simp)
        · intro _ _; exact ⟨rfl, rfl⟩
        · intro _ hw; exact absurd hw (by simp)
        · intro _ hw; exact absurd hw (by simp)
        · intro msg _
          exact ⟨by simp [fullBringUpOrder],
            ⟨[.OscillatorReady, .PLLLocking, .PLLLocked,
              .SwitchingSystemClock, .Running], rfl⟩⟩
      | true =>
        simp only [] at h
        cases hw2 : wait_condition env.pllrdy env.pllWrapped fuel 0 with
        | none => rw [hw2] at h; exact absurd h (by simp)
        | some b2 =>
          rw [hw2] at h
          cases b2 with
          | false =>
            simp only [] at h
            cases h
            refine ⟨?_, ?_, ?_, ?_, ?_⟩
            · intro hc; exact absurd hc (by simp)
            · intro _ hw; exact absurd hw (by simp)
            · intro _ _ _; exact ⟨rfl, rfl⟩
            · intro _ _ hw; exact absurd hw (by simp)
            · intro msg _
              exact ⟨by simp [fullBringUpOrder],
                ⟨[.PLLLocked, .SwitchingSystemClock, .Running], rfl⟩⟩
          | true =>
            simp only [] at h
            cases hw3 : wait_condition env.swsPll env.swsWrapped fuel 0 with
            | none => rw [hw3] at h; exact absurd h (by simp)
            | some b3 =>
              rw [hw3] at h
              cases b3 with
              | false =>
                simp only [] at h
                cases h
                refine ⟨?_, ?_, ?_, ?_, ?_⟩
                · intro hc; exact absurd hc (by simp)
                · intro _ hw; exact absurd hw (by simp)
                · intro _ _ hw; exact absurd hw (by simp)
                · intro _ _ _ _; exact ⟨rfl, rfl⟩
                · intro msg _
                  exact ⟨by simp [fullBringUpOrder], ⟨[.Running], rfl⟩⟩
              | true =>
                simp only [] at h
                cases h
                refine ⟨?_, ?_, ?_, ?_, ?_⟩
                · intro _; rfl
                · intro _ hw; exact absurd hw (by simp)
                · intro _ _ hw; exact absurd hw (by simp)
                · intro _ _ _ hw; exact absurd hw (by simp)
                · intro msg hmsg; exact absurd hmsg (by simp)

/-- Witness for C2: in `envAllReady` with fuel 1 the run completes and its
state trace is exactly the full forward order. -/
theorem setup_state_machine_witness :
    (⟨SetupOutcome.completed, fullBringUpOrder, 8999⟩ : SetupResult).states
      = fullBringUpOrder :=
  (setup_state_machine envAllReady 0 1
    ⟨SetupOutcome.completed, fullBringUpOrder, 8999⟩ rfl).1 rfl

/-- C3: `setup` (src/main.rs lines 79-81) panics with the entry message
exactly when the PLL is already locked at entry; when the PLL is unlocked
the entry check never fires, so no run can end with the entry-check
panic. -/
theorem setup_entry_check (env : ClockEnv) (reload0 fuel : Nat) :
    (env.pllLockedAtEntry = true →
      setup env reload0 fuel
        = some ⟨.panicked ENTRY_PANIC_MSG, [.Idle], reload0⟩) ∧
    (env.pllLockedAtEntry = false →
      ∀ res, setup env reload0 fuel = some res →
        res.outcome ≠ .panicked ENTRY_PANIC_MSG) := by
  constructor
  · intro hpll
    unfold setup
    rw [hpll]
    simp
  · intro hpll res h
    unfold setup at h
    rw [hpll] at h
    simp only [Bool.false_eq_true, if_false] at h
    cases hw1 : wait_condition env.hserdy env.hseWrapped fuel 0 with
    | none => rw [hw1] at h; exact absurd h (by simp)
    | some b1 =>
      rw [hw1] at h
      cases b1 with
      | false =>
        cases h
        simp [HSE_PANIC_MSG, ENTRY_PANIC_MSG]
      | true =>
        simp only [] at h
        cases hw2 : wait_condition env.pllrdy env.pllWrapped fuel 0 with
        | none => rw [hw2] at h; exact absurd h (by simp)
        | some b2 =>
          rw [hw2] at h
          cases b2 with
          | false =>
            cases h
            simp [PLL_PANIC_MSG, ENTRY_PANIC_MSG]
          | true =>
            simp only [] at h
            cases hw3 : wait_condition env.swsPll env.swsWrapped fuel 0 with
            | none => rw [hw3] at h; exact absurd h (by simp)
            | some b3 =>
              rw [hw3] at h
              cases b3 with
              | false =>
                cases h
                simp [SWS_PANIC_MSG, ENTRY_PANIC_MSG]
              | true =>
                cases h
                simp

/-- Witness for C3: with the PLL locked at entry, `setup` halts at once
with the entry panic, visiting only `Idle` and leaving the reload
untouched. -/
theorem setup_entry_check_witness :
    setup envLockedAtEntry 0 0
      = some ⟨.panicked ENTRY_PANIC_MSG, [.Idle], 0⟩ :=
  (setup_entry_check envLockedAtEntry 0 0).1 rfl

/-- C4 counterexample: a successful `setup` run leaves the SYST reload at
`9_000 - 1 = 8999` (src/main.rs line 119), which is not the reload value
`0xffffff` that the snapshot/compare `delay_us` assumes (its doc comment,
src/main.rs line 17). -/
theorem setup_reload_ne_delay_assumption :
    setup envAllReady 0 1
      = some ⟨.completed, fullBringUpOrder, 8999⟩ ∧
    (8999 : Nat) ≠ DELAY_US_ASSUMED_RELOAD :=
  ⟨rfl, by decide⟩

/-- C4 amended: on success `setup` reprograms the reload to `9_000 - 1`
(a 1 ms period at the 9 MHz SysTick rate produced by the new clock), and
the reload value `delay_us` assumes (`0xffffff`) is established by `run`,
which executes `syst.set_reload(0x00ffffff)` (src/main.rs line 180)
immediately after `setup` returns and before any delay is requested. -/
theorem setup_then_run_reload (env : ClockEnv) (reload0 fuel : Nat)
    (res : SetupResult) (h : setup env reload0 fuel = some res)
    (hok : res.outcome = .completed) :
    res.reload = 9000 - 1 ∧
    run_reload_before_delays env reload0 fuel
      = some DELAY_US_ASSUMED_RELOAD := by
  constructor
  · unfold setup at h
    cases hpll : env.pllLockedAtEntry with
    | true =>
      rw [hpll] at h
      simp only [if_true] at h
      cases h
      exact absurd hok (by simp)
    | false =>
      rw [hpll] at h
      simp only [Bool.false_eq_true, if_false] at h
      cases hw1 : wait_condition env.hserdy env.hseWrapped fuel 0 with
      | none => rw [hw1] at h; exact absurd h (by simp)
      | some b1 =>
        rw [hw1] at h
        cases b1 with
        | false => cases h; exact absurd hok (by simp)
        | true =>
          simp only [] at h
          cases hw2 : wait_condition env.pllrdy env.pllWrapped fuel 0 with
          | none => rw [hw2] at h; exact absurd h (by simp)
          | some b2 =>
            rw [hw2] at h
            cases b2 with
            | false => cases h; exact absurd hok (by simp)
            | true =>
              simp only [] at h
              cases hw3 : wait_condition env.swsPll env.swsWrapped fuel 0 with
              | none => rw [hw3] at h; exact absurd h (by simp)
              | some b3 =>
                rw [hw3] at h
                cases b3 with
                | false => cases h; exact absurd hok (by simp)
                | true => cases h; rfl
  · simp only [run_reload_before_delays, h, hok, DELAY_US_ASSUMED_RELOAD]

/-- Witness for the amended C4 in `envAllReady`. -/
theorem setup_then_run_reload_witness :
    (⟨SetupOutcome.completed, fullBringUpOrder, 8999⟩ : SetupResult).reload
      = 9000 - 1 ∧
    run_reload_before_delays envAllReady 0 1
      = some DELAY_US_ASSUMED_RELOAD :=
  setup_then_run_reload envAllReady 0 1
    ⟨SetupOutcome.completed, fullBringUpOrder, 8999⟩ rfl rfl

end MainRs

/-- Effect of writing the word `w` to a GPIO BSRR (bit set/reset) register
on the 16-bit output register `odr`: bits 0-15 of `w` set pins, bits 16-31
reset pins, and on the STM32 a set bit takes priority over the
corresponding reset bit.  This is the single atomic register write both
delay-free pin operations compile to. -/
def bsrr_write (odr w : Nat) : Nat :=
  (odr &&& ((2 ^ 16 - 1) ^^^ ((w >>> 16) &&& (2 ^ 16 - 1)))) |||
    (w &&& (2 ^ 16 - 1))

namespace UtilRs

/-- The `set_pin` macro (src/util.rs lines 3-8): writes `1 << offset` to
BSRR, where `offset = pin` when the flag is set and `offset = pin + 16`
otherwise. -/
def set_pin (odr pin : Nat) (flag : Bool) : Nat :=
  bsrr_write odr (1 <<< (if flag then pin else pin + 16))

/-- Reload value programmed by `delay_us` in src/util.rs line 11:
`syst.set_reload(delay)` — the raw `delay` argument. -/
def delay_us_reload (delay : Nat) : Nat := delay

/-- Number of counter ticks from `syst.clear_current()` (src/util.rs
line 12) until the SysTick one-shot wrap flag fires when the reload value
is `r`: one SysTick period is `reload + 1` ticks, which is why src/main.rs
lines 84 and 119 program `50_000 - 1` for 50 ms and `9_000 - 1` for
1 ms. -/
def wrap_ticks (r : Nat) : Nat := r + 1

/-- The spin `while !syst.has_wrapped() {}` of src/util.rs line 13,
checked once per tick after the `clear_current` reset: returns the tick
at which it observes the wrap flag. -/
def delay_us_spin (r : Nat) : Nat → Nat → Option Nat
  | 0, _ => none
  | fuel + 1, t =>
    if wrap_ticks r ≤ t then some t else delay_us_spin r fuel (t + 1)

theorem delay_us_spin_exit (r : Nat) :
    ∀ fuel t, t ≤ wrap_ticks r → wrap_ticks r < t + fuel →
      delay_us_spin r fuel t = some (wrap_ticks r) := by
  intro fuel
  induction fuel with
  | zero => intro t _ hlt; omega
  | succ fuel ih =>
    intro t hle hlt
    unfold delay_us_spin
    by_cases h : wrap_ticks r ≤ t
    · have : t = wrap_ticks r := by omega
      rw [if_pos h, this]
    · rw [if_neg h]
      exact ih (t + 1) (by omega) (by omega)

/-- C5 (code bug), evaluated at the failing input `delay = 1000`: the
reload/wrap-flag `delay_us` (src/util.rs lines 10-14) programs the reload
register to `delay` itself — not to `delay × 9 − 1` as the strategy
requires at the 9 MHz SysTick rate stated in the function's own comment —
so the spin on the wrap flag ends after 1001 ticks (about 111 µs at
9 ticks/µs) instead of no earlier than `9000` ticks (1000 µs). -/
theorem util_delay_us_reload_bug :
    delay_us_reload 1000 = 1000 ∧
    delay_us_reload 1000 ≠ 1000 * 9 - 1 ∧
    delay_us_spin (delay_us_reload 1000) 2000 0 = some 1001 ∧
    1001 < 1000 * 9 := by
  refine ⟨rfl, by decide, ?_, by decide⟩
  exact delay_us_spin_exit 1000 2000 0 (by decide) (by decide)

end UtilRs

/-- Modelled from the spec: `write_pin(role, value)` of the Pin Binding
contract (spec §4.2) — `stm32_extras::GPIOExtras::write_pin`, which
src/main.rs calls, is not part of this repository.  It sets or clears one
pin with a single BSRR register write, exactly as the in-repo `set_pin`
macro does. -/
def write_pin (odr pin : Nat) (value : Bool) : Nat :=
  bsrr_write odr (1 <<< (if value then pin else pin + 16))

/-- Modelled from the spec: `write_pin_range(start, width, bits)` of the
Pin Binding contract (spec §4.2) — `stm32_extras::GPIOExtras::write_pin_range`
is not part of this repository.  One BSRR write simultaneously sets every
pin of the range whose data bit is 1 and resets every pin of the range
whose data bit is 0; pins outside the range are untouched. -/
def write_pin_range (odr offset width bits : Nat) : Nat :=
  bsrr_write odr
    ((((2 ^ width - 1) ^^^ (bits % 2 ^ width)) <<< (16 + offset)) |||
      ((bits % 2 ^ width) <<< offset))

theorem bsrr_write_single_set (odr pin : Nat)
    (ho : odr < 2 ^ 16) (hp : pin < 16) :
    bsrr_write odr (1 <<< pin) = odr ||| 1 <<< pin := by
  have hw : 1 <<< pin < 2 ^ 16 := by
    rw [Nat.shiftLeft_eq, Nat.one_mul]
    exact Nat.pow_lt_pow_right (by omega) hp
  unfold bsrr_write
  rw [Nat.shiftRight_eq_div_pow, Nat.div_eq_of_lt hw, Nat.zero_and,
    Nat.xor_zero, Nat.and_pow_two_sub_one_of_lt_two_pow ho,
    Nat.and_pow_two_sub_one_of_lt_two_pow hw]

/-- C9: writing `true` to the same pin twice in a row with a single-pin
BSRR write leaves the same 16-bit output register state as writing it
once.  This holds both for the `set_pin` macro of src/util.rs and for the
Pin Binding `write_pin` that `run` uses (src/main.rs lines 194-196). -/
theorem write_pin_true_idempotent (odr pin : Nat)
    (ho : odr < 2 ^ 16) (hp : pin < 16) :
    UtilRs.set_pin (UtilRs.set_pin odr pin true) pin true
        = UtilRs.set_pin odr pin true ∧
    write_pin (write_pin odr pin true) pin true
        = write_pin odr pin true := by
  have hw : 1 <<< pin < 2 ^ 16 := by
    rw [Nat.shiftLeft_eq, Nat.one_mul]
    exact Nat.pow_lt_pow_right (by omega) hp
  have key : bsrr_write (bsrr_write odr (1 <<< pin)) (1 <<< pin)
      = bsrr_write odr (1 <<< pin) := by
    rw [bsrr_write_single_set odr pin ho hp,
      bsrr_write_single_set (odr ||| 1 <<< pin) pin
        (Nat.or_lt_two_pow ho hw) hp,
      Nat.or_assoc, Nat.or_self]
  exact ⟨key, key⟩

/-- Witness for C9 at `odr = 0`, `pin = 10` (the RW pin). -/
theorem write_pin_true_idempotent_witness :
    UtilRs.set_pin (UtilRs.set_pin 0 10 true) 10 true
        = UtilRs.set_pin 0 10 true ∧
    write_pin (write_pin 0 10 true) 10 true = write_pin 0 10 true :=
  write_pin_true_idempotent 0 10 (by norm_num) (by norm_num)

namespace MainRs

/-- `lcd::Hardware::data` for `LcdHardware` (src/main.rs lines 49-51):
exactly one `write_pin_range(DATA, 4, u16::from(data))` call
(`u16::from` is value-preserving on the `u8` argument). -/
def data (odr byte : Nat) : Nat := write_pin_range odr DATA 4 byte

/-- C7: for every 4-bit value `v` (all 16 possibilities), `data` packs `v`
onto the data-bus pins PB12-PB15 with its single atomic
`write_pin_range` register write: afterwards the four bits of the range
hold exactly `v` (requested bits set, all other bits of the range
cleared) and every bit outside the range is unchanged, i.e. the new
output register is `2^12 * v + odr % 2^12`. -/
theorem data_writes_exact_nibble (v odr : Nat) (hv : v < 16)
    (ho : odr < 2 ^ 16) :
    data odr v = 2 ^ 12 * v + odr % 2 ^ 12 := by
  have hb : odr % 2 ^ 12 < 2 ^ 12 := Nat.mod_lt _ (by norm_num)
  have hv4 : v % 2 ^ 4 = v := Nat.mod_eq_of_lt (by norm_num; omega)
  have hvhigh : ∀ k, 4 ≤ k → v.testBit k = false := by
    intro k hk
    exact Nat.testBit_lt_two_pow
      (Nat.lt_of_lt_of_le (by omega)
        (Nat.pow_le_pow_right (by omega) hk))
  apply Nat.eq_of_testBit_eq
  intro j
  rw [Nat.testBit_mul_pow_two_add v hb j]
  unfold data write_pin_range bsrr_write DATA
  rw [hv4]
  simp only [Nat.testBit_or, Nat.testBit_and, Nat.testBit_xor,
    Nat.testBit_shiftLeft, Nat.testBit_shiftRight,
    Nat.testBit_two_pow_sub_one, Nat.testBit_mod_two_pow]
  rcases Nat.lt_or_ge j 12 with hj | hj
  · have d1 : decide (j ≥ 16 + 12) = false := decide_eq_false (by omega)
    have d2 : decide (j ≥ 12) = false := decide_eq_false (by omega)
    have d3 : decide (j < 16) = true := decide_eq_true (by omega)
    have d4 : decide (16 + 12 ≤ 16 + j) = false := decide_eq_false (by omega)
    have d5 : decide (12 ≤ 16 + j) = true := decide_eq_true (by omega)
    have d6 : decide (16 + j - 12 < 4) = false := decide_eq_false (by omega)
    have d7 : decide (j < 12) = true := decide_eq_true (by omega)
    have hv1 : v.testBit (16 + j - 12) = false := hvhigh _ (by omega)
    simp only [ge_iff_le, d1, d2, d3, d4, d5, d6, d7, hv1,
      Bool.false_and, Bool.and_false, Bool.and_true, Bool.true_and,
      Bool.false_or, Bool.or_false, Bool.xor_false, if_true]
    rw [if_pos hj]
  · rcases Nat.lt_or_ge j 16 with hj2 | hj2
    · have d1 : decide (j ≥ 16 + 12) = false := decide_eq_false (by omega)
      have d2 : decide (j ≥ 12) = true := decide_eq_true (by omega)
      have d3 : decide (j < 16) = true := decide_eq_true (by omega)
      have d4 : decide (16 + 12 ≤ 16 + j) = true := decide_eq_true (by omega)
      have d5 : decide (12 ≤ 16 + j) = true := decide_eq_true (by omega)
      have d6 : decide (16 + j - (16 + 12) < 4) = true :=
        decide_eq_true (by omega)
      have d7 : decide (j < 12) = false := decide_eq_false (by omega)
      have hv1 : v.testBit (16 + j - 12) = false := hvhigh _ (by omega)
      have hidx : 16 + j - (16 + 12) = j - 12 := by omega
      simp only [ge_iff_le, d1, d2, d3, d4, d5, d6, d7, hv1, hidx,
        Bool.false_and, Bool.and_false, Bool.and_true, Bool.true_and,
        Bool.false_or, Bool.or_false, Bool.xor_false, Bool.true_xor,
        if_false]
      cases hvb : v.testBit (j - 12) <;>
        cases hob : odr.testBit j <;> simp <;> omega
    · have d1 : decide (j < 16) = false := decide_eq_false (by omega)
      have d7 : decide (j < 12) = false := decide_eq_false (by omega)
      have hv1 : v.testBit (j - 12) = false := hvhigh _ (by omega)
      simp only [ge_iff_le, d1, d7, hv1, Bool.xor_false, Bool.and_false,
        Bool.false_and, Bool.or_false, Bool.false_or, if_false, ite_self]

/-- Witness for C7 at `v = 5`, `odr = 0xABC` (bits inside and outside the
range both populated). -/
theorem data_writes_exact_nibble_witness :
    data 2748 5 = 2 ^ 12 * 5 + 2748 % 2 ^ 12 :=
  data_writes_exact_nibble 5 2748 (by norm_num) (by norm_num)

/-- Pin configuration modes used by the input-capable build. -/
inductive PinMode
  | pushPullOutput
  | floatingInput
  deriving DecidableEq

/-- One observable hardware action of the LCD pin binding. -/
inductive BusAction
  | writeRange (offset width bits : Nat)
  | configPin (pin : Nat) (mode : PinMode)
  | writePin (pin : Nat) (value : Bool)
  | delayMicros (usec : Nat)
  deriving DecidableEq

/-- The action sequence of `InputCapableHardware::rw` for `LcdHardware`
(src/main.rs lines 127-151, the `feature = "input"` build): `rw(true)`
enters read mode — `write_pin_range(DATA, 4, 0)`, then
`for i in 0..4 { pin_config(DATA + i).input().floating() }`, then
`write_pin(RW, true)`; `rw(false)` leaves it — `write_pin(RW, false)`,
then `delay_us(syst, 1)`, then
`for i in 0..4 { pin_config(DATA + i).push_pull().output2() }`. -/
def rw_trace : Bool → List BusAction
  | true =>
    BusAction.writeRange DATA 4 0 ::
      ((List.range 4).map fun i =>
        BusAction.configPin (DATA + i) PinMode.floatingInput) ++
      [BusAction.writePin RW true]
  | false =>
    BusAction.writePin RW false ::
      BusAction.delayMicros 1 ::
      ((List.range 4).map fun i =>
        BusAction.configPin (DATA + i) PinMode.pushPullOutput)

/-- C8: entering read mode performs, in this order: one atomic write
driving all four data-bus pins low, then reconfiguration of PB12-PB15 as
floating inputs, then assertion of the R/W line; leaving read mode
performs, in this order: deassertion of R/W, a 1 µs delay, then
reconfiguration of PB12-PB15 back to push-pull outputs. -/
theorem rw_trace_order :
    rw_trace true =
      [BusAction.writeRange 12 4 0,
       BusAction.configPin 12 PinMode.floatingInput,
       BusAction.configPin 13 PinMode.floatingInput,
       BusAction.configPin 14 PinMode.floatingInput,
       BusAction.configPin 15 PinMode.floatingInput,
       BusAction.writePin 10 true] ∧
    rw_trace false =
      [BusAction.writePin 10 false,
       BusAction.delayMicros 1,
       BusAction.configPin 12 PinMode.pushPullOutput,
       BusAction.configPin 13 PinMode.pushPullOutput,
       BusAction.configPin 14 PinMode.pushPullOutput,
       BusAction.configPin 15 PinMode.pushPullOutput] := by
  constructor <;> rfl

end MainRs

end Bluepill
